import Mathlib

set_option exponentiation.threshold 5000
set_option maxRecDepth 20000

/-!
Verification of the genji `document` comparison module (`document/compare.go`).

The comparator operates on tagged `Value`s. `compare.go` is translated
directly below. The `Value` container, its type tags and the decode helpers
(`Decode`, `DecodeToInt64`, `DecodeToFloat64`) live in the value/encoding
layer of the repository, which is not part of the provided sources; those
are modelled from the specification (each such definition says so in its
doc comment). Byte strings are modelled as `List Nat` with each byte < 256,
machine integers as `Nat`/`Int` with explicit width bounds, and 64-bit
IEEE-754 floats as a symbolic type (`FloatVal`) whose finite values are
rationals, decoded from the standard binary64 bit layout.
-/

namespace Document

/-- Decidable equality of `Except` results, so that concrete comparator
outcomes can be settled by `decide`. -/
instance instDecEqExcept {ε α : Type} [DecidableEq ε] [DecidableEq α] :
    DecidableEq (Except ε α) := fun x y =>
  match x, y with
  | .error a, .error b =>
    if h : a = b then .isTrue (by rw [h]) else .isFalse (fun hc => h (Except.error.inj hc))
  | .error _, .ok _ => .isFalse (fun hc => Except.noConfusion hc)
  | .ok _, .error _ => .isFalse (fun hc => Except.noConfusion hc)
  | .ok a, .ok b =>
    if h : a = b then .isTrue (by rw [h]) else .isFalse (fun hc => h (Except.ok.inj hc))

/-- Modelled from the spec: the closed set of type tags a `Value` can carry
(`Type` field): Null, Bool, signed integer widths 8/16/32/64, unsigned
integer widths 8/16/32/64, Float64, String, Bytes. -/
inductive ValueType where
  | nullValue
  | boolValue
  | int8Value
  | int16Value
  | int32Value
  | int64Value
  | uint8Value
  | uint16Value
  | uint32Value
  | uint64Value
  | float64Value
  | stringValue
  | bytesValue
deriving DecidableEq, Repr

/-- Modelled from the spec: `IsInteger()` is true for all signed/unsigned
integer tags. -/
def ValueType.IsInteger : ValueType → Bool
  | .int8Value | .int16Value | .int32Value | .int64Value => true
  | .uint8Value | .uint16Value | .uint32Value | .uint64Value => true
  | _ => false

/-- Modelled from the spec: `IsNumber()` is true for `IsInteger()` tags plus
Float64. -/
def ValueType.IsNumber : ValueType → Bool
  | .float64Value => true
  | t => t.IsInteger

/-- Modelled from the spec: a `Value` is a tagged container holding a type
tag and its raw encoded payload (a byte sequence). -/
structure Value where
  type : ValueType
  data : List Nat
deriving DecidableEq, Repr

/-- Modelled from the spec: the single error kind, a decode error raised
when raw `Data` cannot be interpreted as its declared `Type`. It records
the offending tag and payload so that distinct failures are distinct
errors. -/
inductive DecodeError where
  | decodeError (t : ValueType) (data : List Nat)
deriving DecidableEq, Repr

/-- A symbolic IEEE-754 binary64 value: NaN, the two infinities, or a
finite value represented exactly as the dyadic rational `m / 2 ^ e`
(every finite binary64 value is of this shape). IEEE comparison semantics
are defined on this type; `-0` and `+0` both have mantissa `0`, matching
IEEE equality of the two zeroes. -/
inductive FloatVal where
  | nan
  | negInf
  | posInf
  | finite (m : ℤ) (e : ℕ)
deriving DecidableEq, Repr

/-- IEEE-754 equality: false whenever an operand is NaN, otherwise equality
of the represented extended reals (`a / 2 ^ j = b / 2 ^ k` by cross
multiplication). -/
def FloatVal.flEq : FloatVal → FloatVal → Bool
  | .finite a j, .finite b k => decide (a * ((2 ^ k : ℕ) : ℤ) = b * ((2 ^ j : ℕ) : ℤ))
  | .negInf, .negInf => true
  | .posInf, .posInf => true
  | _, _ => false

/-- IEEE-754 less-than: false whenever an operand is NaN, otherwise the
order of the represented extended reals. -/
def FloatVal.flLt : FloatVal → FloatVal → Bool
  | .nan, _ => false
  | _, .nan => false
  | .negInf, .negInf => false
  | .negInf, _ => true
  | _, .negInf => false
  | .posInf, _ => false
  | .finite _ _, .posInf => true
  | .finite a j, .finite b k => decide (a * ((2 ^ k : ℕ) : ℤ) < b * ((2 ^ j : ℕ) : ℤ))

/-- IEEE-754 less-than-or-equal: false whenever an operand is NaN,
otherwise the order of the represented extended reals. -/
def FloatVal.flLe : FloatVal → FloatVal → Bool
  | .nan, _ => false
  | _, .nan => false
  | .negInf, _ => true
  | _, .negInf => false
  | .posInf, .posInf => true
  | .posInf, _ => false
  | .finite _ _, .posInf => true
  | .finite a j, .finite b k => decide (a * ((2 ^ k : ℕ) : ℤ) ≤ b * ((2 ^ j : ℕ) : ℤ))

/-- Big-endian interpretation of a byte sequence as an unsigned number. -/
def beBytesNat (data : List Nat) : Nat :=
  data.foldl (fun acc b => acc * 256 + b) 0

/-- Big-endian encoding of `n` on `w` bytes (truncating modulo `2^(8*w)`);
used to build concrete test values. -/
def beEncode : Nat → Nat → List Nat
  | 0, _ => []
  | w + 1, n => beEncode w (n / 256) ++ [n % 256]

/-- Reinterpret a `w`-bit unsigned number as a two's-complement signed
integer. -/
def toSigned (w n : Nat) : Int :=
  if n < 2 ^ (w - 1) then (n : Int) else (n : Int) - ((2 ^ w : ℕ) : ℤ)

/-- Modelled from the spec: parse a fixed-width (`w` bytes) big-endian
payload, failing with a decode error when the payload is malformed (wrong
length or a non-byte entry) for the declared tag. -/
def decodeBE (w : Nat) (t : ValueType) (data : List Nat) : Except DecodeError Nat :=
  if data.length = w ∧ data.all (· < 256) then .ok (beBytesNat data)
  else .error (.decodeError t data)

/-- Decode the IEEE-754 binary64 bit pattern `bits` (sign, 11-bit biased
exponent, 52-bit fraction) into a symbolic float value. -/
def decodeFloatBits (bits : Nat) : FloatVal :=
  let sign : Nat := bits / 2 ^ 63
  let expo : Nat := bits / 2 ^ 52 % 2 ^ 11
  let frac : Nat := bits % 2 ^ 52
  if expo = 2047 then
    if frac = 0 then (if sign = 1 then .negInf else .posInf) else .nan
  else
    let mag : ℤ :=
      if expo = 0 then (frac : ℤ) else ((2 ^ 52 + frac) * 2 ^ expo : ℕ)
    let den : ℕ := if expo = 0 then 1074 else 1075
    .finite (if sign = 1 then -mag else mag) den

/-- Modelled from the spec: the native runtime representation returned by
`Decode` (boolean, integer, unsigned integer, float64, string or byte
sequence). -/
inductive NativeValue where
  | vNull
  | vBool (b : Bool)
  | vInt (i : Int)
  | vUint (n : Nat)
  | vFloat (f : FloatVal)
  | vString (s : List Nat)
  | vBytes (bs : List Nat)
deriving DecidableEq, Repr

/-- The `lv.(uint64)` type assertion of the source: extract the unsigned
value carried by a decoded `Uint64Value` (unreachable default 0 for other
shapes, mirroring the zero value of `ui` in the source). -/
def NativeValue.asUint64 : NativeValue → Nat
  | .vUint n => n
  | _ => 0

/-- Modelled from the spec: `Decode(Value) -> (nativeValue, error)` returns
the native representation matching the `Type` tag, failing with a decode
error on malformed `Data`. Integer tags are fixed-width big-endian (signed
widths two's complement), Float64 is the 8-byte binary64 bit pattern,
String/Bytes are the raw payload, Null carries no payload constraint. -/
def Value.Decode (v : Value) : Except DecodeError NativeValue :=
  match v.type with
  | .nullValue => .ok .vNull
  | .boolValue => do
    let n ← decodeBE 1 .boolValue v.data
    .ok (.vBool (n ≠ 0))
  | .int8Value => do
    let n ← decodeBE 1 .int8Value v.data
    .ok (.vInt (toSigned 8 n))
  | .int16Value => do
    let n ← decodeBE 2 .int16Value v.data
    .ok (.vInt (toSigned 16 n))
  | .int32Value => do
    let n ← decodeBE 4 .int32Value v.data
    .ok (.vInt (toSigned 32 n))
  | .int64Value => do
    let n ← decodeBE 8 .int64Value v.data
    .ok (.vInt (toSigned 64 n))
  | .uint8Value => do
    let n ← decodeBE 1 .uint8Value v.data
    .ok (.vUint n)
  | .uint16Value => do
    let n ← decodeBE 2 .uint16Value v.data
    .ok (.vUint n)
  | .uint32Value => do
    let n ← decodeBE 4 .uint32Value v.data
    .ok (.vUint n)
  | .uint64Value => do
    let n ← decodeBE 8 .uint64Value v.data
    .ok (.vUint n)
  | .float64Value => do
    let n ← decodeBE 8 .float64Value v.data
    .ok (.vFloat (decodeFloatBits n))
  | .stringValue => .ok (.vString v.data)
  | .bytesValue => .ok (.vBytes v.data)

/-- Modelled from the spec: `DecodeToInt64(Value) -> (int64, error)`, valid
only when `IsInteger()` is true; decodes the integer payload and converts
it to a 64-bit signed integer (Go `int64(x)`: exact for every source width
except `uint64`, which is reinterpreted two's complement). Fails with a
decode error on malformed `Data` or on a tag outside the integer set. -/
def Value.DecodeToInt64 (v : Value) : Except DecodeError Int :=
  match v.type with
  | .int8Value => do
    let n ← decodeBE 1 .int8Value v.data
    .ok (toSigned 8 n)
  | .int16Value => do
    let n ← decodeBE 2 .int16Value v.data
    .ok (toSigned 16 n)
  | .int32Value => do
    let n ← decodeBE 4 .int32Value v.data
    .ok (toSigned 32 n)
  | .int64Value => do
    let n ← decodeBE 8 .int64Value v.data
    .ok (toSigned 64 n)
  | .uint8Value => do
    let n ← decodeBE 1 .uint8Value v.data
    .ok (n : Int)
  | .uint16Value => do
    let n ← decodeBE 2 .uint16Value v.data
    .ok (n : Int)
  | .uint32Value => do
    let n ← decodeBE 4 .uint32Value v.data
    .ok (n : Int)
  | .uint64Value => do
    let n ← decodeBE 8 .uint64Value v.data
    .ok (if n < 2 ^ 63 then (n : Int) else (n : Int) - ((2 ^ 64 : ℕ) : ℤ))
  | t => .error (.decodeError t v.data)

/-- Modelled from the spec: `DecodeToFloat64(Value) -> (float64, error)`,
valid only when `IsNumber()` is true; decodes the payload and converts it
to a 64-bit float. The integer-to-float conversion is modelled as exact
(the claims under verification never exercise magnitudes where binary64
rounding of an integer differs from the exact value). Fails with a decode
error on malformed `Data` or on a tag outside the numeric set. -/
def Value.DecodeToFloat64 (v : Value) : Except DecodeError FloatVal :=
  match v.type with
  | .float64Value => do
    let n ← decodeBE 8 .float64Value v.data
    .ok (decodeFloatBits n)
  | .int8Value => do
    let n ← decodeBE 1 .int8Value v.data
    .ok (.finite (toSigned 8 n) 0)
  | .int16Value => do
    let n ← decodeBE 2 .int16Value v.data
    .ok (.finite (toSigned 16 n) 0)
  | .int32Value => do
    let n ← decodeBE 4 .int32Value v.data
    .ok (.finite (toSigned 32 n) 0)
  | .int64Value => do
    let n ← decodeBE 8 .int64Value v.data
    .ok (.finite (toSigned 64 n) 0)
  | .uint8Value => do
    let n ← decodeBE 1 .uint8Value v.data
    .ok (.finite (n : ℤ) 0)
  | .uint16Value => do
    let n ← decodeBE 2 .uint16Value v.data
    .ok (.finite (n : ℤ) 0)
  | .uint32Value => do
    let n ← decodeBE 4 .uint32Value v.data
    .ok (.finite (n : ℤ) 0)
  | .uint64Value => do
    let n ← decodeBE 8 .uint64Value v.data
    .ok (.finite (n : ℤ) 0)
  | t => .error (.decodeError t v.data)

/-- The `operator` enumeration of `compare.go`. -/
inductive operator where
  | operatorEq
  | operatorGt
  | operatorGte
  | operatorLt
  | operatorLte
deriving DecidableEq, Repr

/-- `bytes.Compare`: standard lexicographic byte ordering. -/
def bytesCompare : List Nat → List Nat → Ordering
  | [], [] => .eq
  | [], _ :: _ => .lt
  | _ :: _, [] => .gt
  | a :: as, b :: bs =>
    if a < b then .lt else if b < a then .gt else bytesCompare as bs

/-- `math.MaxInt64`. -/
def maxInt64 : Nat := 9223372036854775807

/-- The `integer OP integer` block of `compare` (`compare.go` lines
120-147): decode both operands to 64-bit signed integers, aborting with
the decode error on failure, then apply the requested operator with
signed-integer comparison. -/
def intCompare (op : operator) (l r : Value) : Except DecodeError Bool :=
  match l.DecodeToInt64 with
  | .error e => .error e
  | .ok ai =>
    match r.DecodeToInt64 with
    | .error e => .error e
    | .ok bi =>
      .ok (match op with
        | .operatorEq => decide (ai = bi)
        | .operatorGt => decide (ai > bi)
        | .operatorGte => decide (ai ≥ bi)
        | .operatorLt => decide (ai < bi)
        | .operatorLte => decide (ai ≤ bi))

/-- The `number OP number` block of `compare` (`compare.go` lines 150-177):
decode both operands to 64-bit floats, aborting with the decode error on
failure, then apply the requested operator with IEEE-754 comparison
semantics. -/
def numberCompare (op : operator) (l r : Value) : Except DecodeError Bool :=
  match l.DecodeToFloat64 with
  | .error e => .error e
  | .ok af =>
    match r.DecodeToFloat64 with
    | .error e => .error e
    | .ok bf =>
      .ok (match op with
        | .operatorEq => af.flEq bf
        | .operatorGt => bf.flLt af
        | .operatorGte => bf.flLe af
        | .operatorLt => af.flLt bf
        | .operatorLte => af.flLe bf)

/-- The tail of `compare` reached by falling through the unsigned-64 block:
the integer rule, then the numeric rule, then the incomparable fallback
(`compare.go` lines 119-179). -/
def compareTail (op : operator) (l r : Value) : Except DecodeError Bool :=
  if l.type.IsInteger ∧ r.type.IsInteger then intCompare op l r
  else if l.type.IsNumber ∧ r.type.IsNumber then numberCompare op l r
  else .ok false

/-- The `ui` local of the unsigned-64 block of `compare` (`compare.go`
lines 97-102): the unsigned value of whichever decoded operand carries the
`Uint64Value` tag (`0` when neither does, mirroring the zero value in the
source). -/
def uiOf (l r : Value) (lv rv : NativeValue) : Nat :=
  if l.type = .uint64Value then lv.asUint64
  else if r.type = .uint64Value then rv.asUint64
  else 0

/-- `compare` (`compare.go` lines 53-180): the null rule, the directly
comparable (same type or String/Bytes) raw-byte rule, the unsigned-64
overflow rule, then the fall-through tail. -/
def compare (op : operator) (l r : Value) : Except DecodeError Bool :=
  if l.type = .nullValue ∨ r.type = .nullValue then
    .ok (match op with
      | .operatorEq | .operatorGte | .operatorLte => decide (l.type = r.type)
      | .operatorGt | .operatorLt => false)
  else if l.type = r.type ∨ (l.type = .stringValue ∧ r.type = .bytesValue)
      ∨ (r.type = .stringValue ∧ l.type = .bytesValue) then
    .ok (match op with
      | .operatorEq => decide (l.data = r.data)
      | .operatorGt => decide (bytesCompare l.data r.data = .gt)
      | .operatorGte => decide (bytesCompare l.data r.data ≠ .lt)
      | .operatorLt => decide (bytesCompare l.data r.data = .lt)
      | .operatorLte => decide (bytesCompare l.data r.data ≠ .gt))
  else if l.type = .uint64Value ∨ r.type = .uint64Value then
    match l.Decode with
    | .error e => .error e
    | .ok lv =>
      match r.Decode with
      | .error e => .error e
      | .ok rv =>
        if uiOf l r lv rv > maxInt64 then
          .ok (match op with
            | .operatorEq => false
            | .operatorGt | .operatorGte => decide (l.type = .uint64Value)
            | .operatorLt | .operatorLte => decide (r.type = .uint64Value))
        else compareTail op l r
  else compareTail op l r

/-- `Value.IsEqual`. -/
def Value.IsEqual (v other : Value) : Except DecodeError Bool :=
  compare .operatorEq v other

/-- `Value.IsNotEqual`: negation of `IsEqual`, propagating its error. -/
def Value.IsNotEqual (v other : Value) : Except DecodeError Bool :=
  match v.IsEqual other with
  | .error e => .error e
  | .ok ok => .ok (!ok)

/-- `Value.IsGreaterThan`. -/
def Value.IsGreaterThan (v other : Value) : Except DecodeError Bool :=
  compare .operatorGt v other

/-- `Value.IsGreaterThanOrEqual`. -/
def Value.IsGreaterThanOrEqual (v other : Value) : Except DecodeError Bool :=
  compare .operatorGte v other

/-- `Value.IsLesserThan`. -/
def Value.IsLesserThan (v other : Value) : Except DecodeError Bool :=
  compare .operatorLt v other

/-- `Value.IsLesserThanOrEqual`. -/
def Value.IsLesserThanOrEqual (v other : Value) : Except DecodeError Bool :=
  compare .operatorLte v other

/-- The conditions under which evaluation falls through every coercion rule
of `compare` to the final `return false, nil` (the incomparable fallback):
neither operand Null, type tags distinct and not a String/Bytes pair, not
both numeric, and no unsigned-64 overflow decision — when a `Uint64`
operand is present, both decodes succeed and the decoded unsigned value
fits in a signed 64-bit integer, so the overflow block neither aborts nor
decides. -/
def incomparableFallback (a b : Value) : Prop :=
  a.type ≠ .nullValue ∧ b.type ≠ .nullValue ∧ a.type ≠ b.type ∧
  ¬(a.type = .stringValue ∧ b.type = .bytesValue) ∧
  ¬(b.type = .stringValue ∧ a.type = .bytesValue) ∧
  ¬(a.type.IsNumber ∧ b.type.IsNumber) ∧
  (a.type = .uint64Value ∨ b.type = .uint64Value →
    ∃ lv rv, a.Decode = .ok lv ∧ b.Decode = .ok rv ∧ uiOf a b lv rv ≤ maxInt64)

instance decOverflowUndecided (a b : Value) :
    Decidable (∃ lv rv, a.Decode = .ok lv ∧ b.Decode = .ok rv ∧
      uiOf a b lv rv ≤ maxInt64) :=
  match a.Decode with
  | .error _ => .isFalse (fun ⟨_, _, h1, _, _⟩ => Except.noConfusion h1)
  | .ok lv =>
    match b.Decode with
    | .error _ => .isFalse (fun ⟨_, _, _, h2, _⟩ => Except.noConfusion h2)
    | .ok rv =>
      if h : uiOf a b lv rv ≤ maxInt64 then .isTrue ⟨lv, rv, rfl, rfl, h⟩
      else .isFalse (fun ⟨lv2, rv2, h1, h2, h3⟩ => by
        cases Except.ok.inj h1
        cases Except.ok.inj h2
        exact h h3)

instance (a b : Value) : Decidable (incomparableFallback a b) := by
  unfold incomparableFallback; infer_instance

/-- A value carrying a floating-point NaN payload: its float decode
succeeds and yields NaN. -/
def hasNaNPayload (v : Value) : Prop :=
  v.DecodeToFloat64 = .ok .nan

instance (v : Value) : Decidable (hasNaNPayload v) := by
  unfold hasNaNPayload; infer_instance

section BranchLemmas

lemma compare_null_rule (op : operator) (l r : Value)
    (h : l.type = .nullValue ∨ r.type = .nullValue) :
    compare op l r = .ok (match op with
      | .operatorEq | .operatorGte | .operatorLte => decide (l.type = r.type)
      | .operatorGt | .operatorLt => false) := by
  unfold compare
  rw [if_pos h]

lemma compare_byte_rule (op : operator) (l r : Value)
    (h1 : ¬(l.type = .nullValue ∨ r.type = .nullValue))
    (h2 : l.type = r.type ∨ (l.type = .stringValue ∧ r.type = .bytesValue)
      ∨ (r.type = .stringValue ∧ l.type = .bytesValue)) :
    compare op l r = .ok (match op with
      | .operatorEq => decide (l.data = r.data)
      | .operatorGt => decide (bytesCompare l.data r.data = .gt)
      | .operatorGte => decide (bytesCompare l.data r.data ≠ .lt)
      | .operatorLt => decide (bytesCompare l.data r.data = .lt)
      | .operatorLte => decide (bytesCompare l.data r.data ≠ .gt)) := by
  unfold compare
  rw [if_neg h1, if_pos h2]

lemma compare_u64_rule (op : operator) (l r : Value)
    (h1 : ¬(l.type = .nullValue ∨ r.type = .nullValue))
    (h2 : ¬(l.type = r.type ∨ (l.type = .stringValue ∧ r.type = .bytesValue)
      ∨ (r.type = .stringValue ∧ l.type = .bytesValue)))
    (h3 : l.type = .uint64Value ∨ r.type = .uint64Value) :
    compare op l r =
      (match l.Decode with
      | .error e => .error e
      | .ok lv =>
        match r.Decode with
        | .error e => .error e
        | .ok rv =>
          if uiOf l r lv rv > maxInt64 then
            .ok (match op with
              | .operatorEq => false
              | .operatorGt | .operatorGte => decide (l.type = .uint64Value)
              | .operatorLt | .operatorLte => decide (r.type = .uint64Value))
          else compareTail op l r) := by
  unfold compare
  rw [if_neg h1, if_neg h2, if_pos h3]

lemma compare_tail_rule (op : operator) (l r : Value)
    (h1 : ¬(l.type = .nullValue ∨ r.type = .nullValue))
    (h2 : ¬(l.type = r.type ∨ (l.type = .stringValue ∧ r.type = .bytesValue)
      ∨ (r.type = .stringValue ∧ l.type = .bytesValue)))
    (h3 : ¬(l.type = .uint64Value ∨ r.type = .uint64Value)) :
    compare op l r = compareTail op l r := by
  unfold compare
  rw [if_neg h1, if_neg h2, if_neg h3]

lemma compareTail_int_rule (op : operator) (l r : Value)
    (h : l.type.IsInteger ∧ r.type.IsInteger) :
    compareTail op l r = intCompare op l r := by
  unfold compareTail
  rw [if_pos h]

lemma compareTail_number_rule (op : operator) (l r : Value)
    (h1 : ¬(l.type.IsInteger ∧ r.type.IsInteger))
    (h2 : l.type.IsNumber ∧ r.type.IsNumber) :
    compareTail op l r = numberCompare op l r := by
  unfold compareTail
  rw [if_neg h1, if_pos h2]

lemma compareTail_fallback_rule (op : operator) (l r : Value)
    (h1 : ¬(l.type.IsInteger ∧ r.type.IsInteger))
    (h2 : ¬(l.type.IsNumber ∧ r.type.IsNumber)) :
    compareTail op l r = .ok false := by
  unfold compareTail
  rw [if_neg h1, if_neg h2]

end BranchLemmas

section OrderLemmas

lemma bytesCompare_eq_iff (a b : List Nat) : bytesCompare a b = .eq ↔ a = b := by
  induction a generalizing b with
  | nil => cases b <;> simp [bytesCompare]
  | cons x xs ih =>
    cases b with
    | nil => simp [bytesCompare]
    | cons y ys =>
      simp only [bytesCompare, List.cons.injEq]
      rcases Nat.lt_trichotomy x y with h | h | h
      · rw [if_pos h]
        constructor
        · intro hc; cases hc
        · rintro ⟨h1, h2⟩; omega
      · subst h
        rw [if_neg (lt_irrefl x), if_neg (lt_irrefl x), ih]
        simp
      · rw [if_neg (by omega : ¬x < y), if_pos h]
        constructor
        · intro hc; cases hc
        · rintro ⟨h1, h2⟩; omega

lemma bytesCompare_swap (a b : List Nat) :
    bytesCompare a b = .gt ↔ bytesCompare b a = .lt := by
  induction a generalizing b with
  | nil => cases b <;> simp [bytesCompare]
  | cons x xs ih =>
    cases b with
    | nil => simp [bytesCompare]
    | cons y ys =>
      simp only [bytesCompare]
      rcases Nat.lt_trichotomy x y with h | h | h
      · rw [if_pos h, if_neg (by omega : ¬y < x), if_pos h]
        simp
      · subst h
        rw [if_neg (lt_irrefl x), if_neg (lt_irrefl x), if_neg (lt_irrefl x),
          if_neg (lt_irrefl x)]
        exact ih ys
      · rw [if_neg (by omega : ¬x < y), if_pos h, if_pos h]
        simp

lemma bytesCompare_lt_iff (a b : List Nat) :
    bytesCompare a b = .lt ↔ List.Lex (· < ·) a b := by
  induction a generalizing b with
  | nil =>
    cases b with
    | nil =>
      constructor
      · intro hc; exact absurd hc (by decide)
      · intro hc; cases hc
    | cons y ys =>
      exact iff_of_true rfl List.Lex.nil
  | cons x xs ih =>
    cases b with
    | nil =>
      simp only [bytesCompare]
      constructor
      · intro hc; cases hc
      · intro hc; cases hc
    | cons y ys =>
      simp only [bytesCompare]
      rcases Nat.lt_trichotomy x y with h | h | h
      · rw [if_pos h]
        constructor
        · intro _; exact List.Lex.rel h
        · intro _; rfl
      · subst h
        rw [if_neg (lt_irrefl x), if_neg (lt_irrefl x), ih]
        constructor
        · intro hc; exact List.Lex.cons hc
        · intro hc
          cases hc with
          | cons h => exact h
          | rel h => exact absurd h (lt_irrefl x)
      · rw [if_neg (by omega : ¬x < y), if_pos h]
        constructor
        · intro hc; cases hc
        · intro hc
          cases hc with
          | cons hc => omega
          | rel hc => omega

lemma flEq_symm (x y : FloatVal) : x.flEq y = y.flEq x := by
  cases x <;> cases y <;> try rfl
  simp only [FloatVal.flEq]
  rw [decide_eq_decide]
  exact eq_comm

lemma int_exactly_one (A B : ℤ) :
    (A < B ∧ ¬B < A ∧ ¬A = B) ∨ (¬A < B ∧ B < A ∧ ¬A = B)
      ∨ (¬A < B ∧ ¬B < A ∧ A = B) := by
  omega

lemma flLe_eq_lt_or_eq (x y : FloatVal) : x.flLe y = (x.flLt y || x.flEq y) := by
  cases x <;> cases y <;> try rfl
  simp only [FloatVal.flLe, FloatVal.flLt, FloatVal.flEq]
  rw [← Bool.decide_or, decide_eq_decide]
  exact le_iff_lt_or_eq

lemma fl_nan_all_false (x y : FloatVal) (h : x = .nan ∨ y = .nan) :
    x.flLt y = false ∧ y.flLt x = false ∧ x.flEq y = false ∧
      x.flLe y = false ∧ y.flLe x = false := by
  rcases h with h | h
  · subst h; cases y <;> simp [FloatVal.flLt, FloatVal.flEq, FloatVal.flLe]
  · subst h; cases x <;> simp [FloatVal.flLt, FloatVal.flEq, FloatVal.flLe]

end OrderLemmas

/-- Exactly one of three alternatives holds. -/
def exactlyOneOfThree (p q s : Prop) : Prop :=
  (p ∧ ¬q ∧ ¬s) ∨ (¬p ∧ q ∧ ¬s) ∨ (¬p ∧ ¬q ∧ s)

instance (p q s : Prop) [Decidable p] [Decidable q] [Decidable s] :
    Decidable (exactlyOneOfThree p q s) := by
  unfold exactlyOneOfThree; infer_instance

lemma fl_trichotomy (x y : FloatVal) (hx : x ≠ FloatVal.nan) (hy : y ≠ FloatVal.nan) :
    exactlyOneOfThree (x.flLt y = true) (y.flLt x = true) (x.flEq y = true) := by
  cases x with
  | nan => exact absurd rfl hx
  | negInf =>
    cases y with
    | nan => exact absurd rfl hy
    | negInf => unfold exactlyOneOfThree; decide
    | posInf => unfold exactlyOneOfThree; decide
    | finite n k =>
      unfold exactlyOneOfThree
      simp [FloatVal.flLt, FloatVal.flEq]
  | posInf =>
    cases y with
    | nan => exact absurd rfl hy
    | negInf => unfold exactlyOneOfThree; decide
    | posInf => unfold exactlyOneOfThree; decide
    | finite n k =>
      unfold exactlyOneOfThree
      simp [FloatVal.flLt, FloatVal.flEq]
  | finite m j =>
    cases y with
    | nan => exact absurd rfl hy
    | negInf =>
      unfold exactlyOneOfThree
      simp [FloatVal.flLt, FloatVal.flEq]
    | posInf =>
      unfold exactlyOneOfThree
      simp [FloatVal.flLt, FloatVal.flEq]
    | finite n k =>
      unfold exactlyOneOfThree
      simp only [FloatVal.flLt, FloatVal.flEq, decide_eq_true_eq]
      exact int_exactly_one _ _

lemma exactlyOneOfThree_swap (p q s : Prop) :
    exactlyOneOfThree p q s → exactlyOneOfThree q p s := by
  unfold exactlyOneOfThree; tauto

lemma ok_inj {x y : Bool} (h : (Except.ok x : Except DecodeError Bool) = .ok y) :
    x = y :=
  Except.ok.inj h

lemma isNumber_of_isInteger (t : ValueType) (h : t.IsInteger = true) :
    t.IsNumber = true := by
  cases t <;> revert h <;> decide

/-- For an integer-tagged value, `Decode` and `DecodeToInt64` parse the same
payload: they fail together (with the same error) or succeed together. -/
lemma int_decode_cases (v : Value) (hv : v.type.IsInteger = true) :
    (∃ e, v.Decode = .error e ∧ v.DecodeToInt64 = .error e) ∨
      (∃ nv i, v.Decode = .ok nv ∧ v.DecodeToInt64 = .ok i) := by
  unfold Value.Decode Value.DecodeToInt64
  cases htv : v.type <;> rw [htv] at hv <;> try exact absurd hv (by decide)
  all_goals {
    dsimp only
    cases hde : decodeBE _ _ v.data with
    | error e => exact Or.inl ⟨e, rfl, rfl⟩
    | ok n => exact Or.inr ⟨_, _, rfl, rfl⟩
  }

/-- For a numeric-tagged value, `Decode` and `DecodeToFloat64` parse the
same payload: they fail together (with the same error) or succeed
together. -/
lemma num_decode_cases (v : Value) (hv : v.type.IsNumber = true) :
    (∃ e, v.Decode = .error e ∧ v.DecodeToFloat64 = .error e) ∨
      (∃ nv f, v.Decode = .ok nv ∧ v.DecodeToFloat64 = .ok f) := by
  unfold Value.Decode Value.DecodeToFloat64
  cases htv : v.type <;> rw [htv] at hv <;> try exact absurd hv (by decide)
  all_goals {
    dsimp only
    cases hde : decodeBE _ _ v.data with
    | error e => exact Or.inl ⟨e, rfl, rfl⟩
    | ok n => exact Or.inr ⟨_, _, rfl, rfl⟩
  }

lemma uiOf_of_no_uint64 (l r : Value) (hl : l.type ≠ .uint64Value)
    (hr : r.type ≠ .uint64Value) (lv rv : NativeValue) : uiOf l r lv rv = 0 := by
  unfold uiOf
  rw [if_neg hl, if_neg hr]

/-- Exhaustive shape analysis of the fall-through tail of `compare`. -/
lemma compareTail_shape (a b : Value)
    (_h1 : ¬(a.type = .nullValue ∨ b.type = .nullValue))
    (_h2 : ¬(a.type = b.type ∨ (a.type = .stringValue ∧ b.type = .bytesValue)
      ∨ (b.type = .stringValue ∧ a.type = .bytesValue))) :
    (∃ ai bi, a.DecodeToInt64 = .ok ai ∧ b.DecodeToInt64 = .ok bi ∧
      ∀ op, compareTail op a b = .ok (match op with
        | .operatorEq => decide (ai = bi)
        | .operatorGt => decide (ai > bi)
        | .operatorGte => decide (ai ≥ bi)
        | .operatorLt => decide (ai < bi)
        | .operatorLte => decide (ai ≤ bi))) ∨
    (∃ af bf, a.DecodeToFloat64 = .ok af ∧ b.DecodeToFloat64 = .ok bf ∧
      ∀ op, compareTail op a b = .ok (match op with
        | .operatorEq => af.flEq bf
        | .operatorGt => bf.flLt af
        | .operatorGte => bf.flLe af
        | .operatorLt => af.flLt bf
        | .operatorLte => af.flLe bf)) ∨
    (¬(a.type.IsNumber ∧ b.type.IsNumber) ∧
      ∀ op, compareTail op a b = .ok false) ∨
    (∃ e, ∀ op, compareTail op a b = .error e) := by
  by_cases hint : a.type.IsInteger ∧ b.type.IsInteger
  · have hrule := fun op => compareTail_int_rule op a b hint
    cases hai : a.DecodeToInt64 with
    | error e =>
      right; right; right
      exact ⟨e, fun op => by rw [hrule op]; unfold intCompare; rw [hai]⟩
    | ok ai =>
      cases hbi : b.DecodeToInt64 with
      | error e =>
        right; right; right
        exact ⟨e, fun op => by rw [hrule op]; unfold intCompare; rw [hai, hbi]⟩
      | ok bi =>
        left
        exact ⟨ai, bi, rfl, rfl, fun op => by
          rw [hrule op]; unfold intCompare; rw [hai, hbi]⟩
  · by_cases hnum : a.type.IsNumber ∧ b.type.IsNumber
    · have hrule := fun op => compareTail_number_rule op a b hint hnum
      cases haf : a.DecodeToFloat64 with
      | error e =>
        right; right; right
        exact ⟨e, fun op => by rw [hrule op]; unfold numberCompare; rw [haf]⟩
      | ok af =>
        cases hbf : b.DecodeToFloat64 with
        | error e =>
          right; right; right
          exact ⟨e, fun op => by rw [hrule op]; unfold numberCompare; rw [haf, hbf]⟩
        | ok bf =>
          right; left
          exact ⟨af, bf, rfl, rfl, fun op => by
            rw [hrule op]; unfold numberCompare; rw [haf, hbf]⟩
    · right; right; left
      exact ⟨hnum, fun op => compareTail_fallback_rule op a b hint hnum⟩

/-- Exhaustive shape analysis of `compare`: every pair of values lands in
exactly one of the behavioural regions of the dispatch. -/
lemma compare_shape (a b : Value) :
    ((a.type = .nullValue ∨ b.type = .nullValue) ∧
      ∀ op, compare op a b = .ok (match op with
        | .operatorEq | .operatorGte | .operatorLte => decide (a.type = b.type)
        | .operatorGt | .operatorLt => false)) ∨
    (¬(a.type = .nullValue ∨ b.type = .nullValue) ∧
      ∀ op, compare op a b = .ok (match op with
        | .operatorEq => decide (a.data = b.data)
        | .operatorGt => decide (bytesCompare a.data b.data = .gt)
        | .operatorGte => decide (bytesCompare a.data b.data ≠ .lt)
        | .operatorLt => decide (bytesCompare a.data b.data = .lt)
        | .operatorLte => decide (bytesCompare a.data b.data ≠ .gt))) ∨
    (a.type ≠ b.type ∧ (a.type = .uint64Value ∨ b.type = .uint64Value) ∧
      ∀ op, compare op a b = .ok (match op with
        | .operatorEq => false
        | .operatorGt | .operatorGte => decide (a.type = .uint64Value)
        | .operatorLt | .operatorLte => decide (b.type = .uint64Value))) ∨
    (∃ ai bi, a.DecodeToInt64 = .ok ai ∧ b.DecodeToInt64 = .ok bi ∧
      ∀ op, compare op a b = .ok (match op with
        | .operatorEq => decide (ai = bi)
        | .operatorGt => decide (ai > bi)
        | .operatorGte => decide (ai ≥ bi)
        | .operatorLt => decide (ai < bi)
        | .operatorLte => decide (ai ≤ bi))) ∨
    (∃ af bf, a.DecodeToFloat64 = .ok af ∧ b.DecodeToFloat64 = .ok bf ∧
      ∀ op, compare op a b = .ok (match op with
        | .operatorEq => af.flEq bf
        | .operatorGt => bf.flLt af
        | .operatorGte => bf.flLe af
        | .operatorLt => af.flLt bf
        | .operatorLte => af.flLe bf)) ∨
    (incomparableFallback a b ∧ ∀ op, compare op a b = .ok false) ∨
    (∃ e, ∀ op, compare op a b = .error e) := by
  by_cases h1 : a.type = .nullValue ∨ b.type = .nullValue
  · exact Or.inl ⟨h1, fun op => compare_null_rule op a b h1⟩
  by_cases h2 : a.type = b.type ∨ (a.type = .stringValue ∧ b.type = .bytesValue)
      ∨ (b.type = .stringValue ∧ a.type = .bytesValue)
  · exact Or.inr (Or.inl ⟨h1, fun op => compare_byte_rule op a b h1 h2⟩)
  have lift : (∀ op, compare op a b = compareTail op a b) →
      ((a.type = .uint64Value ∨ b.type = .uint64Value) →
        ∃ lv rv, a.Decode = .ok lv ∧ b.Decode = .ok rv ∧
          uiOf a b lv rv ≤ maxInt64) →
      (∃ ai bi, a.DecodeToInt64 = .ok ai ∧ b.DecodeToInt64 = .ok bi ∧
        ∀ op, compare op a b = .ok (match op with
          | .operatorEq => decide (ai = bi)
          | .operatorGt => decide (ai > bi)
          | .operatorGte => decide (ai ≥ bi)
          | .operatorLt => decide (ai < bi)
          | .operatorLte => decide (ai ≤ bi))) ∨
      (∃ af bf, a.DecodeToFloat64 = .ok af ∧ b.DecodeToFloat64 = .ok bf ∧
        ∀ op, compare op a b = .ok (match op with
          | .operatorEq => af.flEq bf
          | .operatorGt => bf.flLt af
          | .operatorGte => bf.flLe af
          | .operatorLt => af.flLt bf
          | .operatorLte => af.flLe bf)) ∨
      (incomparableFallback a b ∧ ∀ op, compare op a b = .ok false) ∨
      (∃ e, ∀ op, compare op a b = .error e) := by
    intro hkey hu
    rcases compareTail_shape a b h1 h2 with
      ⟨ai, bi, hai, hbi, hall⟩ | ⟨af, bf, haf, hbf, hall⟩ | ⟨hnum, hall⟩ | ⟨e, hall⟩
    · exact Or.inl ⟨ai, bi, hai, hbi, fun op => (hkey op).trans (hall op)⟩
    · exact Or.inr (Or.inl ⟨af, bf, haf, hbf, fun op => (hkey op).trans (hall op)⟩)
    · refine Or.inr (Or.inr (Or.inl
        ⟨⟨?_, ?_, ?_, ?_, ?_, hnum, hu⟩, fun op => (hkey op).trans (hall op)⟩))
      · exact fun hc => h1 (Or.inl hc)
      · exact fun hc => h1 (Or.inr hc)
      · exact fun hc => h2 (Or.inl hc)
      · exact fun hc => h2 (Or.inr (Or.inl hc))
      · exact fun hc => h2 (Or.inr (Or.inr hc))
    · exact Or.inr (Or.inr (Or.inr ⟨e, fun op => (hkey op).trans (hall op)⟩))
  by_cases h3 : a.type = .uint64Value ∨ b.type = .uint64Value
  · have hrule := fun op => compare_u64_rule op a b h1 h2 h3
    cases hda : a.Decode with
    | error e =>
      refine Or.inr (Or.inr (Or.inr (Or.inr (Or.inr (Or.inr ⟨e, fun op => ?_⟩)))))
      rw [hrule op, hda]
    | ok lv =>
      cases hdb : b.Decode with
      | error e =>
        refine Or.inr (Or.inr (Or.inr (Or.inr (Or.inr (Or.inr ⟨e, fun op => ?_⟩)))))
        rw [hrule op, hda, hdb]
      | ok rv =>
        by_cases hui : uiOf a b lv rv > maxInt64
        · refine Or.inr (Or.inr (Or.inl ⟨fun hc => h2 (Or.inl hc), h3, fun op => ?_⟩))
          rw [hrule op, hda, hdb]
          exact if_pos hui
        · refine Or.inr (Or.inr (Or.inr
            (lift (fun op => ?_) (fun _ => ⟨lv, rv, hda, hdb, by omega⟩))))
          rw [hrule op, hda, hdb]
          exact if_neg hui
  · exact Or.inr (Or.inr (Or.inr
      (lift (fun op => compare_tail_rule op a b h1 h2 h3)
        (fun hc => absurd hc h3))))

/-! ### Concrete test values (from the spec's testable properties) -/

/-- The Null value. -/
def nullVal : Value := ⟨.nullValue, []⟩

/-- `Bool(true)`. -/
def boolTrueVal : Value := ⟨.boolValue, [1]⟩

/-- `String("x")`. -/
def stringXVal : Value := ⟨.stringValue, [120]⟩

/-- `Bytes("x")`. -/
def bytesXVal : Value := ⟨.bytesValue, [120]⟩

/-- `String("5")`. -/
def stringFiveVal : Value := ⟨.stringValue, [53]⟩

/-- `Int64(5)`. -/
def int64FiveVal : Value := ⟨.int64Value, beEncode 8 5⟩

/-- `Uint64(18446744073709551615)`. -/
def uint64MaxVal : Value := ⟨.uint64Value, beEncode 8 18446744073709551615⟩

/-- `Int64(9223372036854775807)`. -/
def int64MaxVal : Value := ⟨.int64Value, beEncode 8 9223372036854775807⟩

/-- `Int64(-1)` (two's complement). -/
def int64NegOneVal : Value := ⟨.int64Value, beEncode 8 (2 ^ 64 - 1)⟩

/-- `Int32(5)`. -/
def int32FiveVal : Value := ⟨.int32Value, beEncode 4 5⟩

/-- `Int8(1)`. -/
def int8OneVal : Value := ⟨.int8Value, [1]⟩

/-- `Float64(5.0)` (binary64 bit pattern `0x4014000000000000`). -/
def float64FiveVal : Value := ⟨.float64Value, beEncode 8 0x4014000000000000⟩

/-- `Float64(1.5)` (binary64 bit pattern `0x3FF8000000000000`). -/
def float64OnePointFiveVal : Value := ⟨.float64Value, beEncode 8 0x3FF8000000000000⟩

/-- `Float64(NaN)` (quiet NaN bit pattern `0x7FF8000000000000`). -/
def floatNaNVal : Value := ⟨.float64Value, beEncode 8 0x7FF8000000000000⟩

/-- `Uint64(9223372036854775808)`, i.e. `2^63`, just above `MaxInt64`. -/
def uint64Pow63Val : Value := ⟨.uint64Value, beEncode 8 (2 ^ 63)⟩

/-- `Float64(9223372036854775808.0)`, i.e. `2^63` exactly (bit pattern
`0x43E0000000000000`). -/
def float64Pow63Val : Value := ⟨.float64Value, beEncode 8 0x43E0000000000000⟩

/-- `Float64(2^70)` exactly (bit pattern `0x4450000000000000`), numerically
larger than any uint64. -/
def float64Pow70Val : Value := ⟨.float64Value, beEncode 8 0x4450000000000000⟩

/-- A `Uint64Value` with malformed (empty) payload. -/
def malformedUint64Val : Value := ⟨.uint64Value, []⟩

/-! ### Claims -/

/-- C2: for every pair of Values where at least one operand's type is Null,
`IsEqual`, `IsGreaterThanOrEqual` and `IsLesserThanOrEqual` succeed with
true exactly when both operands are Null, while `IsGreaterThan` and
`IsLesserThan` always succeed with false; no decode is attempted, so the
result carries no error whatever the payloads. -/
theorem null_rule_spec (l r : Value)
    (h : l.type = .nullValue ∨ r.type = .nullValue) :
    l.IsEqual r = .ok (decide (l.type = .nullValue ∧ r.type = .nullValue)) ∧
    l.IsGreaterThanOrEqual r
      = .ok (decide (l.type = .nullValue ∧ r.type = .nullValue)) ∧
    l.IsLesserThanOrEqual r
      = .ok (decide (l.type = .nullValue ∧ r.type = .nullValue)) ∧
    l.IsGreaterThan r = .ok false ∧
    l.IsLesserThan r = .ok false := by
  have key : decide (l.type = r.type)
      = decide (l.type = .nullValue ∧ r.type = .nullValue) := by
    rw [decide_eq_decide]
    constructor
    · intro he
      rcases h with h | h
      · exact ⟨h, he ▸ h⟩
      · exact ⟨he.trans h, h⟩
    · rintro ⟨hh1, hh2⟩
      exact hh1.trans hh2.symm
  refine ⟨?_, ?_, ?_, ?_, ?_⟩
  · show compare .operatorEq l r = _
    rw [compare_null_rule _ _ _ h]
    exact congrArg Except.ok key
  · show compare .operatorGte l r = _
    rw [compare_null_rule _ _ _ h]
    exact congrArg Except.ok key
  · show compare .operatorLte l r = _
    rw [compare_null_rule _ _ _ h]
    exact congrArg Except.ok key
  · show compare .operatorGt l r = _
    rw [compare_null_rule _ _ _ h]
  · show compare .operatorLt l r = _
    rw [compare_null_rule _ _ _ h]

/-- C2 witness: the Null rule evaluated at `(Null, Bool(true))`. -/
theorem null_rule_spec_witness :
    nullVal.IsEqual boolTrueVal
      = .ok (decide (nullVal.type = .nullValue ∧ boolTrueVal.type = .nullValue)) ∧
    nullVal.IsGreaterThanOrEqual boolTrueVal
      = .ok (decide (nullVal.type = .nullValue ∧ boolTrueVal.type = .nullValue)) ∧
    nullVal.IsLesserThanOrEqual boolTrueVal
      = .ok (decide (nullVal.type = .nullValue ∧ boolTrueVal.type = .nullValue)) ∧
    nullVal.IsGreaterThan boolTrueVal = .ok false ∧
    nullVal.IsLesserThan boolTrueVal = .ok false :=
  null_rule_spec nullVal boolTrueVal (Or.inl rfl)

/-- C3: for every pair of non-Null Values with equal type tags, or a
String/Bytes mix, every predicate is decided purely by the raw payloads
with no decode and no error: `IsEqual` is byte-equality of `Data`, and the
four ordering predicates follow standard lexicographic byte ordering (the
strict comparisons agree with `List.Lex (· < ·)`); in particular
`IsEqual(String("x"), Bytes("x"))` is true. -/
theorem byte_rule_spec (l r : Value)
    (hl : l.type ≠ .nullValue) (hr : r.type ≠ .nullValue)
    (h : l.type = r.type ∨ (l.type = .stringValue ∧ r.type = .bytesValue)
      ∨ (r.type = .stringValue ∧ l.type = .bytesValue)) :
    l.IsEqual r = .ok (decide (l.data = r.data)) ∧
    l.IsGreaterThan r = .ok (decide (bytesCompare l.data r.data = .gt)) ∧
    l.IsGreaterThanOrEqual r = .ok (decide (bytesCompare l.data r.data ≠ .lt)) ∧
    l.IsLesserThan r = .ok (decide (bytesCompare l.data r.data = .lt)) ∧
    l.IsLesserThanOrEqual r = .ok (decide (bytesCompare l.data r.data ≠ .gt)) ∧
    (bytesCompare l.data r.data = .lt ↔ List.Lex (· < ·) l.data r.data) ∧
    (bytesCompare l.data r.data = .gt ↔ List.Lex (· < ·) r.data l.data) ∧
    stringXVal.IsEqual bytesXVal = .ok true := by
  have h1 : ¬(l.type = .nullValue ∨ r.type = .nullValue) := by
    rintro (hc | hc)
    exacts [hl hc, hr hc]
  refine ⟨?_, ?_, ?_, ?_, ?_, bytesCompare_lt_iff _ _,
    (bytesCompare_swap _ _).trans (bytesCompare_lt_iff _ _), by decide⟩
  · show compare .operatorEq l r = _
    rw [compare_byte_rule _ _ _ h1 h]
  · show compare .operatorGt l r = _
    rw [compare_byte_rule _ _ _ h1 h]
  · show compare .operatorGte l r = _
    rw [compare_byte_rule _ _ _ h1 h]
  · show compare .operatorLt l r = _
    rw [compare_byte_rule _ _ _ h1 h]
  · show compare .operatorLte l r = _
    rw [compare_byte_rule _ _ _ h1 h]

/-- C3 witness: the raw-byte rule evaluated at `(String("x"), Bytes("x"))`. -/
theorem byte_rule_spec_witness :
    stringXVal.IsEqual bytesXVal = .ok (decide (stringXVal.data = bytesXVal.data)) ∧
    stringXVal.IsGreaterThan bytesXVal
      = .ok (decide (bytesCompare stringXVal.data bytesXVal.data = .gt)) ∧
    stringXVal.IsGreaterThanOrEqual bytesXVal
      = .ok (decide (bytesCompare stringXVal.data bytesXVal.data ≠ .lt)) ∧
    stringXVal.IsLesserThan bytesXVal
      = .ok (decide (bytesCompare stringXVal.data bytesXVal.data = .lt)) ∧
    stringXVal.IsLesserThanOrEqual bytesXVal
      = .ok (decide (bytesCompare stringXVal.data bytesXVal.data ≠ .gt)) ∧
    (bytesCompare stringXVal.data bytesXVal.data = .lt
      ↔ List.Lex (· < ·) stringXVal.data bytesXVal.data) ∧
    (bytesCompare stringXVal.data bytesXVal.data = .gt
      ↔ List.Lex (· < ·) bytesXVal.data stringXVal.data) ∧
    stringXVal.IsEqual bytesXVal = .ok true :=
  byte_rule_spec stringXVal bytesXVal (by decide) (by decide)
    (Or.inr (Or.inl ⟨rfl, rfl⟩))

/-- C6: when no dispatch rule applies (neither operand Null, distinct
types, not a String/Bytes pair, not both numeric, and no unsigned-64
overflow decision), every one of the five operators succeeds with false,
and consequently `IsNotEqual` succeeds with true; in particular this holds
for `(String("5"), Int64(5))`. -/
theorem incomparable_fallback_spec (l r : Value)
    (hl : l.type ≠ .nullValue) (hr : r.type ≠ .nullValue)
    (hne : l.type ≠ r.type)
    (hsb : ¬(l.type = .stringValue ∧ r.type = .bytesValue))
    (hbs : ¬(r.type = .stringValue ∧ l.type = .bytesValue))
    (hnum : ¬(l.type.IsNumber ∧ r.type.IsNumber))
    (hu : l.type = .uint64Value ∨ r.type = .uint64Value →
      ∃ lv rv, l.Decode = .ok lv ∧ r.Decode = .ok rv ∧ uiOf l r lv rv ≤ maxInt64) :
    l.IsEqual r = .ok false ∧ l.IsGreaterThan r = .ok false ∧
    l.IsGreaterThanOrEqual r = .ok false ∧ l.IsLesserThan r = .ok false ∧
    l.IsLesserThanOrEqual r = .ok false ∧ l.IsNotEqual r = .ok true ∧
    stringFiveVal.IsEqual int64FiveVal = .ok false ∧
    stringFiveVal.IsGreaterThan int64FiveVal = .ok false ∧
    stringFiveVal.IsGreaterThanOrEqual int64FiveVal = .ok false ∧
    stringFiveVal.IsLesserThan int64FiveVal = .ok false ∧
    stringFiveVal.IsLesserThanOrEqual int64FiveVal = .ok false ∧
    stringFiveVal.IsNotEqual int64FiveVal = .ok true := by
  have h1 : ¬(l.type = .nullValue ∨ r.type = .nullValue) := by
    rintro (hc | hc)
    exacts [hl hc, hr hc]
  have h2 : ¬(l.type = r.type ∨ (l.type = .stringValue ∧ r.type = .bytesValue)
      ∨ (r.type = .stringValue ∧ l.type = .bytesValue)) := by
    rintro (hc | hc | hc)
    exacts [hne hc, hsb hc, hbs hc]
  have hint : ¬(l.type.IsInteger ∧ r.type.IsInteger) := fun hc =>
    hnum ⟨isNumber_of_isInteger _ hc.1, isNumber_of_isInteger _ hc.2⟩
  have key : ∀ op, compare op l r = .ok false := by
    intro op
    by_cases h3 : l.type = .uint64Value ∨ r.type = .uint64Value
    · obtain ⟨lv, rv, hdl, hdr, hui⟩ := hu h3
      rw [compare_u64_rule op l r h1 h2 h3, hdl, hdr]
      exact (if_neg (by omega : ¬uiOf l r lv rv > maxInt64)).trans
        (compareTail_fallback_rule op l r hint hnum)
    · rw [compare_tail_rule op l r h1 h2 h3,
        compareTail_fallback_rule op l r hint hnum]
  refine ⟨key _, key _, key _, key _, key _, ?_,
    by decide, by decide, by decide, by decide, by decide, by decide⟩
  unfold Value.IsNotEqual
  rw [show l.IsEqual r = .ok false from key _]
  rfl

/-- C6 witness: the incomparable fallback evaluated at
`(String("5"), Int64(5))`. -/
theorem incomparable_fallback_spec_witness :
    stringFiveVal.IsEqual int64FiveVal = .ok false ∧
    stringFiveVal.IsGreaterThan int64FiveVal = .ok false ∧
    stringFiveVal.IsGreaterThanOrEqual int64FiveVal = .ok false ∧
    stringFiveVal.IsLesserThan int64FiveVal = .ok false ∧
    stringFiveVal.IsLesserThanOrEqual int64FiveVal = .ok false ∧
    stringFiveVal.IsNotEqual int64FiveVal = .ok true :=
  have h := incomparable_fallback_spec stringFiveVal int64FiveVal
    (by decide) (by decide) (by decide) (by decide) (by decide) (by decide)
    (fun hc => absurd hc (by decide))
  ⟨h.1, h.2.1, h.2.2.1, h.2.2.2.1, h.2.2.2.2.1, h.2.2.2.2.2.1⟩

lemma ok_decide_iff (p : Prop) [Decidable p] :
    ((Except.ok (decide p) : Except DecodeError Bool) = .ok true) ↔ p := by
  constructor
  · intro h
    exact of_decide_eq_true (Except.ok.inj h)
  · intro hp
    rw [decide_eq_true hp]

/-- C1: for distinct-typed non-Null operands that are not a String/Bytes
pair, with one operand a `Uint64` whose decoded value exceeds `MaxInt64`
(both decodes succeeding): `IsEqual` is false, `IsGreaterThan` and
`IsGreaterThanOrEqual` are true iff the `Uint64` is the left operand,
`IsLesserThan` and `IsLesserThanOrEqual` are true iff the `Uint64` is the
right operand; in particular
`IsGreaterThan(Uint64(18446744073709551615), Int64(9223372036854775807))`
is true, `IsEqual` of that pair is false, and
`IsLesserThan(Int64(-1), Uint64(18446744073709551615))` is true. When the
decoded value does not exceed `MaxInt64`, the rule decides nothing and
evaluation falls through to the tail beginning with the integer rule. -/
theorem uint64_overflow_spec (l r : Value) (lv rv : NativeValue)
    (hl : l.type ≠ .nullValue) (hr : r.type ≠ .nullValue)
    (hne : l.type ≠ r.type)
    (hsb : ¬(l.type = .stringValue ∧ r.type = .bytesValue))
    (hbs : ¬(r.type = .stringValue ∧ l.type = .bytesValue))
    (hu : l.type = .uint64Value ∨ r.type = .uint64Value)
    (hdl : l.Decode = .ok lv) (hdr : r.Decode = .ok rv) :
    (uiOf l r lv rv > maxInt64 →
      l.IsEqual r = .ok false ∧
      (l.IsGreaterThan r = .ok true ↔ l.type = .uint64Value) ∧
      (l.IsGreaterThanOrEqual r = .ok true ↔ l.type = .uint64Value) ∧
      (l.IsLesserThan r = .ok true ↔ r.type = .uint64Value) ∧
      (l.IsLesserThanOrEqual r = .ok true ↔ r.type = .uint64Value)) ∧
    (uiOf l r lv rv ≤ maxInt64 → ∀ op, compare op l r = compareTail op l r) ∧
    uint64MaxVal.IsGreaterThan int64MaxVal = .ok true ∧
    uint64MaxVal.IsEqual int64MaxVal = .ok false ∧
    int64NegOneVal.IsLesserThan uint64MaxVal = .ok true := by
  have h1 : ¬(l.type = .nullValue ∨ r.type = .nullValue) := by
    rintro (hc | hc)
    exacts [hl hc, hr hc]
  have h2 : ¬(l.type = r.type ∨ (l.type = .stringValue ∧ r.type = .bytesValue)
      ∨ (r.type = .stringValue ∧ l.type = .bytesValue)) := by
    rintro (hc | hc | hc)
    exacts [hne hc, hsb hc, hbs hc]
  have hrule : ∀ op, compare op l r =
      (if uiOf l r lv rv > maxInt64 then
        Except.ok (match op with
          | .operatorEq => false
          | .operatorGt | .operatorGte => decide (l.type = .uint64Value)
          | .operatorLt | .operatorLte => decide (r.type = .uint64Value))
      else compareTail op l r) := by
    intro op
    rw [compare_u64_rule op l r h1 h2 hu, hdl, hdr]
  refine ⟨?_, ?_, by decide, by decide, by decide⟩
  · intro hui
    refine ⟨?_, ?_, ?_, ?_, ?_⟩
    · show compare .operatorEq l r = _
      rw [hrule .operatorEq, if_pos hui]
    · show compare .operatorGt l r = .ok true ↔ _
      rw [hrule .operatorGt, if_pos hui]
      exact ok_decide_iff _
    · show compare .operatorGte l r = .ok true ↔ _
      rw [hrule .operatorGte, if_pos hui]
      exact ok_decide_iff _
    · show compare .operatorLt l r = .ok true ↔ _
      rw [hrule .operatorLt, if_pos hui]
      exact ok_decide_iff _
    · show compare .operatorLte l r = .ok true ↔ _
      rw [hrule .operatorLte, if_pos hui]
      exact ok_decide_iff _
  · intro hui op
    rw [hrule op, if_neg (by omega)]

/-- C1 witness: the overflow rule evaluated at
`(Uint64(18446744073709551615), Int64(9223372036854775807))`. -/
theorem uint64_overflow_spec_witness :
    uiOf uint64MaxVal int64MaxVal (.vUint 18446744073709551615)
      (.vInt 9223372036854775807) > maxInt64 ∧
    uint64MaxVal.IsEqual int64MaxVal = .ok false ∧
    (uint64MaxVal.IsGreaterThan int64MaxVal = .ok true
      ↔ uint64MaxVal.type = .uint64Value) := by
  have h := uint64_overflow_spec uint64MaxVal int64MaxVal
    (.vUint 18446744073709551615) (.vInt 9223372036854775807)
    (by decide) (by decide) (by decide) (by decide) (by decide)
    (Or.inl rfl) (by decide) (by decide)
  exact ⟨by decide, (h.1 (by decide)).1, (h.1 (by decide)).2.1⟩

/-- C5: for distinct-typed non-Null operands that both satisfy
`IsInteger()`, when the unsigned-64 overflow rule decides nothing, each
operand is decoded to a 64-bit signed integer — a decode failure aborting
with that decode error — and the requested operator is evaluated with
ordinary signed 64-bit integer comparison. -/
theorem integer_rule_spec (l r : Value)
    (hl : l.type ≠ .nullValue) (hr : r.type ≠ .nullValue)
    (hne : l.type ≠ r.type)
    (hint : l.type.IsInteger ∧ r.type.IsInteger)
    (hnd : ∀ lv rv, l.Decode = .ok lv → r.Decode = .ok rv →
      uiOf l r lv rv ≤ maxInt64) :
    (∀ op, compare op l r = intCompare op l r) ∧
    (∀ ai bi, l.DecodeToInt64 = .ok ai → r.DecodeToInt64 = .ok bi →
      l.IsEqual r = .ok (decide (ai = bi)) ∧
      l.IsGreaterThan r = .ok (decide (ai > bi)) ∧
      l.IsGreaterThanOrEqual r = .ok (decide (ai ≥ bi)) ∧
      l.IsLesserThan r = .ok (decide (ai < bi)) ∧
      l.IsLesserThanOrEqual r = .ok (decide (ai ≤ bi))) ∧
    (∀ e, l.DecodeToInt64 = .error e → ∀ op, compare op l r = .error e) ∧
    (∀ ai e, l.DecodeToInt64 = .ok ai → r.DecodeToInt64 = .error e →
      ∀ op, compare op l r = .error e) := by
  have h1 : ¬(l.type = .nullValue ∨ r.type = .nullValue) := by
    rintro (hc | hc)
    exacts [hl hc, hr hc]
  have h2 : ¬(l.type = r.type ∨ (l.type = .stringValue ∧ r.type = .bytesValue)
      ∨ (r.type = .stringValue ∧ l.type = .bytesValue)) := by
    rintro (hc | ⟨hc, _⟩ | ⟨_, hc⟩)
    · exact hne hc
    · rw [hc] at hint; exact absurd hint.1 (by decide)
    · rw [hc] at hint; exact absurd hint.1 (by decide)
  have key : ∀ op, compare op l r = intCompare op l r := by
    intro op
    by_cases h3 : l.type = .uint64Value ∨ r.type = .uint64Value
    · rcases int_decode_cases l hint.1 with ⟨e, hde, hdi⟩ | ⟨nv, i, hde, hdi⟩
      · rw [compare_u64_rule op l r h1 h2 h3, hde]
        unfold intCompare
        rw [hdi]
      · rcases int_decode_cases r hint.2 with ⟨e, hre, hri⟩ | ⟨nv2, i2, hre, hri⟩
        · rw [compare_u64_rule op l r h1 h2 h3, hde, hre]
          unfold intCompare
          rw [hdi, hri]
        · rw [compare_u64_rule op l r h1 h2 h3, hde, hre]
          refine Eq.trans (if_neg (by have := hnd _ _ hde hre; omega)) ?_
          exact compareTail_int_rule op l r hint
    · rw [compare_tail_rule op l r h1 h2 h3]
      exact compareTail_int_rule op l r hint
  refine ⟨key, ?_, ?_, ?_⟩
  · intro ai bi hai hbi
    refine ⟨?_, ?_, ?_, ?_, ?_⟩
    · show compare .operatorEq l r = _
      rw [key .operatorEq]
      unfold intCompare
      rw [hai, hbi]
    · show compare .operatorGt l r = _
      rw [key .operatorGt]
      unfold intCompare
      rw [hai, hbi]
    · show compare .operatorGte l r = _
      rw [key .operatorGte]
      unfold intCompare
      rw [hai, hbi]
    · show compare .operatorLt l r = _
      rw [key .operatorLt]
      unfold intCompare
      rw [hai, hbi]
    · show compare .operatorLte l r = _
      rw [key .operatorLte]
      unfold intCompare
      rw [hai, hbi]
  · intro e he op
    rw [key op]
    unfold intCompare
    rw [he]
  · intro ai e hai hre op
    rw [key op]
    unfold intCompare
    rw [hai, hre]

/-- C5 witness: the integer rule evaluated at `(Int8(1), Int32(5))`. -/
theorem integer_rule_spec_witness :
    int8OneVal.IsEqual int32FiveVal = .ok (decide ((1 : ℤ) = 5)) ∧
    int8OneVal.IsGreaterThan int32FiveVal = .ok (decide ((1 : ℤ) > 5)) ∧
    int8OneVal.IsGreaterThanOrEqual int32FiveVal = .ok (decide ((1 : ℤ) ≥ 5)) ∧
    int8OneVal.IsLesserThan int32FiveVal = .ok (decide ((1 : ℤ) < 5)) ∧
    int8OneVal.IsLesserThanOrEqual int32FiveVal = .ok (decide ((1 : ℤ) ≤ 5)) :=
  (integer_rule_spec int8OneVal int32FiveVal (by decide) (by decide) (by decide)
    (by decide)
    (fun lv rv h1 h2 => by
      rw [uiOf_of_no_uint64 _ _ (by decide) (by decide)]
      decide)).2.1 1 5 (by decide) (by decide)

/-- C4: for distinct-typed non-Null operands, both numeric with at least
one `Float64`, when the unsigned-64 overflow rule decides nothing, both
operands are decoded to 64-bit floats — a decode failure aborting with
that error — and the requested operator is evaluated with IEEE-754
comparison semantics; hence `IsEqual(Int32(5), Float64(5.0))` is true,
`IsGreaterThan(Float64(1.5), Int8(1))` is true, and a NaN operand makes
all five operators evaluate false. -/
theorem number_rule_spec (l r : Value)
    (hl : l.type ≠ .nullValue) (hr : r.type ≠ .nullValue)
    (hne : l.type ≠ r.type)
    (hnum : l.type.IsNumber ∧ r.type.IsNumber)
    (hfl : l.type = .float64Value ∨ r.type = .float64Value)
    (hnd : ∀ lv rv, l.Decode = .ok lv → r.Decode = .ok rv →
      uiOf l r lv rv ≤ maxInt64) :
    (∀ op, compare op l r = numberCompare op l r) ∧
    (∀ af bf, l.DecodeToFloat64 = .ok af → r.DecodeToFloat64 = .ok bf →
      l.IsEqual r = .ok (af.flEq bf) ∧
      l.IsGreaterThan r = .ok (bf.flLt af) ∧
      l.IsGreaterThanOrEqual r = .ok (bf.flLe af) ∧
      l.IsLesserThan r = .ok (af.flLt bf) ∧
      l.IsLesserThanOrEqual r = .ok (af.flLe bf)) ∧
    (∀ e, l.DecodeToFloat64 = .error e → ∀ op, compare op l r = .error e) ∧
    (∀ af e, l.DecodeToFloat64 = .ok af → r.DecodeToFloat64 = .error e →
      ∀ op, compare op l r = .error e) ∧
    (∀ af bf, l.DecodeToFloat64 = .ok af → r.DecodeToFloat64 = .ok bf →
      af = .nan ∨ bf = .nan →
      l.IsEqual r = .ok false ∧ l.IsGreaterThan r = .ok false ∧
      l.IsGreaterThanOrEqual r = .ok false ∧ l.IsLesserThan r = .ok false ∧
      l.IsLesserThanOrEqual r = .ok false) ∧
    int32FiveVal.IsEqual float64FiveVal = .ok true ∧
    float64OnePointFiveVal.IsGreaterThan int8OneVal = .ok true := by
  have h1 : ¬(l.type = .nullValue ∨ r.type = .nullValue) := by
    rintro (hc | hc)
    exacts [hl hc, hr hc]
  have h2 : ¬(l.type = r.type ∨ (l.type = .stringValue ∧ r.type = .bytesValue)
      ∨ (r.type = .stringValue ∧ l.type = .bytesValue)) := by
    rintro (hc | ⟨hc, _⟩ | ⟨_, hc⟩)
    · exact hne hc
    · rw [hc] at hnum; exact absurd hnum.1 (by decide)
    · rw [hc] at hnum; exact absurd hnum.1 (by decide)
  have hni : ¬(l.type.IsInteger ∧ r.type.IsInteger) := by
    rintro ⟨ha, hb⟩
    rcases hfl with hc | hc
    · rw [hc] at ha; exact absurd ha (by decide)
    · rw [hc] at hb; exact absurd hb (by decide)
  have key : ∀ op, compare op l r = numberCompare op l r := by
    intro op
    by_cases h3 : l.type = .uint64Value ∨ r.type = .uint64Value
    · rcases num_decode_cases l hnum.1 with ⟨e, hde, hdf⟩ | ⟨nv, x, hde, hdf⟩
      · rw [compare_u64_rule op l r h1 h2 h3, hde]
        unfold numberCompare
        rw [hdf]
      · rcases num_decode_cases r hnum.2 with ⟨e, hre, hrf⟩ | ⟨nv2, y, hre, hrf⟩
        · rw [compare_u64_rule op l r h1 h2 h3, hde, hre]
          unfold numberCompare
          rw [hdf, hrf]
        · rw [compare_u64_rule op l r h1 h2 h3, hde, hre]
          refine Eq.trans (if_neg (by have := hnd _ _ hde hre; omega)) ?_
          exact compareTail_number_rule op l r hni hnum
    · rw [compare_tail_rule op l r h1 h2 h3]
      exact compareTail_number_rule op l r hni hnum
  have part2 : ∀ af bf, l.DecodeToFloat64 = .ok af → r.DecodeToFloat64 = .ok bf →
      l.IsEqual r = .ok (af.flEq bf) ∧
      l.IsGreaterThan r = .ok (bf.flLt af) ∧
      l.IsGreaterThanOrEqual r = .ok (bf.flLe af) ∧
      l.IsLesserThan r = .ok (af.flLt bf) ∧
      l.IsLesserThanOrEqual r = .ok (af.flLe bf) := by
    intro af bf haf hbf
    refine ⟨?_, ?_, ?_, ?_, ?_⟩
    · show compare .operatorEq l r = _
      rw [key .operatorEq]
      unfold numberCompare
      rw [haf, hbf]
    · show compare .operatorGt l r = _
      rw [key .operatorGt]
      unfold numberCompare
      rw [haf, hbf]
    · show compare .operatorGte l r = _
      rw [key .operatorGte]
      unfold numberCompare
      rw [haf, hbf]
    · show compare .operatorLt l r = _
      rw [key .operatorLt]
      unfold numberCompare
      rw [haf, hbf]
    · show compare .operatorLte l r = _
      rw [key .operatorLte]
      unfold numberCompare
      rw [haf, hbf]
  refine ⟨key, part2, ?_, ?_, ?_, by decide, by decide⟩
  · intro e he op
    rw [key op]
    unfold numberCompare
    rw [he]
  · intro af e haf hre op
    rw [key op]
    unfold numberCompare
    rw [haf, hre]
  · intro af bf haf hbf hnan
    obtain ⟨c1, c2, c3, c4, c5⟩ := part2 af bf haf hbf
    have hn := fl_nan_all_false af bf hnan
    exact ⟨by rw [c1, hn.2.2.1], by rw [c2, hn.2.1], by rw [c3, hn.2.2.2.2],
      by rw [c4, hn.1], by rw [c5, hn.2.2.2.1]⟩

/-- C4 witness: the numeric rule evaluated at `(Float64(NaN), Int8(1))`:
every operator is false against NaN. -/
theorem number_rule_spec_witness :
    floatNaNVal.IsEqual int8OneVal = .ok false ∧
    floatNaNVal.IsGreaterThan int8OneVal = .ok false ∧
    floatNaNVal.IsGreaterThanOrEqual int8OneVal = .ok false ∧
    floatNaNVal.IsLesserThan int8OneVal = .ok false ∧
    floatNaNVal.IsLesserThanOrEqual int8OneVal = .ok false :=
  (number_rule_spec floatNaNVal int8OneVal (by decide) (by decide) (by decide)
    (by decide) (Or.inl rfl)
    (fun lv rv h1 h2 => by
      rw [uiOf_of_no_uint64 _ _ (by decide) (by decide)]
      decide)).2.2.2.2.1 .nan (.finite 1 0) (by decide) (by decide)
    (Or.inl rfl)

/-- C9: when one operand is a `Uint64` whose decoded value exceeds
`MaxInt64` and the other a `Float64` (both decodes succeeding), the result
depends only on which side the `Uint64` is on, never on the float's
magnitude or payload: `IsEqual` is false even for numerically equal pairs
such as `(Uint64(2^63), Float64(2^63))`, `IsGreaterThan(Uint64, Float64)`
is true even when the float is numerically larger such as `Float64(2^70)`,
and the same holds when the float is NaN. -/
theorem uint64_float_overflow_spec (l r : Value) (u : Nat) (f : FloatVal)
    (hlt : l.type = .uint64Value) (hrt : r.type = .float64Value)
    (hdl : l.Decode = .ok (.vUint u)) (hdr : r.Decode = .ok (.vFloat f))
    (hui : u > maxInt64) :
    (l.IsEqual r = .ok false ∧ l.IsGreaterThan r = .ok true ∧
      l.IsGreaterThanOrEqual r = .ok true ∧ l.IsLesserThan r = .ok false ∧
      l.IsLesserThanOrEqual r = .ok false) ∧
    (r.IsEqual l = .ok false ∧ r.IsGreaterThan l = .ok false ∧
      r.IsGreaterThanOrEqual l = .ok false ∧ r.IsLesserThan l = .ok true ∧
      r.IsLesserThanOrEqual l = .ok true) ∧
    uint64Pow63Val.IsEqual float64Pow63Val = .ok false ∧
    uint64MaxVal.IsGreaterThan float64Pow70Val = .ok true ∧
    uint64MaxVal.IsGreaterThan floatNaNVal = .ok true ∧
    uint64MaxVal.IsEqual floatNaNVal = .ok false ∧
    uint64MaxVal.IsLesserThan floatNaNVal = .ok false := by
  have hne : l.type ≠ r.type := by rw [hlt, hrt]; decide
  have h1 : ¬(l.type = .nullValue ∨ r.type = .nullValue) := by
    rw [hlt, hrt]; decide
  have h2 : ¬(l.type = r.type ∨ (l.type = .stringValue ∧ r.type = .bytesValue)
      ∨ (r.type = .stringValue ∧ l.type = .bytesValue)) := by
    rw [hlt, hrt]; decide
  have h1s : ¬(r.type = .nullValue ∨ l.type = .nullValue) := by
    rw [hlt, hrt]; decide
  have h2s : ¬(r.type = l.type ∨ (r.type = .stringValue ∧ l.type = .bytesValue)
      ∨ (l.type = .stringValue ∧ r.type = .bytesValue)) := by
    rw [hlt, hrt]; decide
  have huiOf : uiOf l r (.vUint u) (.vFloat f) = u := by
    unfold uiOf
    rw [if_pos hlt]
    rfl
  have huiOfS : uiOf r l (.vFloat f) (.vUint u) = u := by
    unfold uiOf
    rw [if_neg (by rw [hrt]; decide), if_pos hlt]
    rfl
  refine ⟨?_, ?_, by decide, by decide, by decide, by decide, by decide⟩
  · have hrule : ∀ op, compare op l r =
        Except.ok (match op with
          | .operatorEq => false
          | .operatorGt | .operatorGte => decide (l.type = .uint64Value)
          | .operatorLt | .operatorLte => decide (r.type = .uint64Value)) := by
      intro op
      rw [compare_u64_rule op l r h1 h2 (Or.inl hlt), hdl, hdr]
      exact if_pos (by rw [huiOf]; omega)
    refine ⟨?_, ?_, ?_, ?_, ?_⟩
    · show compare .operatorEq l r = _
      rw [hrule .operatorEq]
    · show compare .operatorGt l r = _
      rw [hrule .operatorGt]
      simp [hlt]
    · show compare .operatorGte l r = _
      rw [hrule .operatorGte]
      simp [hlt]
    · show compare .operatorLt l r = _
      rw [hrule .operatorLt]
      simp [hrt]
    · show compare .operatorLte l r = _
      rw [hrule .operatorLte]
      simp [hrt]
  · have hrule : ∀ op, compare op r l =
        Except.ok (match op with
          | .operatorEq => false
          | .operatorGt | .operatorGte => decide (r.type = .uint64Value)
          | .operatorLt | .operatorLte => decide (l.type = .uint64Value)) := by
      intro op
      rw [compare_u64_rule op r l h1s h2s (Or.inr hlt), hdr, hdl]
      exact if_pos (by rw [huiOfS]; omega)
    refine ⟨?_, ?_, ?_, ?_, ?_⟩
    · show compare .operatorEq r l = _
      rw [hrule .operatorEq]
    · show compare .operatorGt r l = _
      rw [hrule .operatorGt]
      simp [hrt]
    · show compare .operatorGte r l = _
      rw [hrule .operatorGte]
      simp [hrt]
    · show compare .operatorLt r l = _
      rw [hrule .operatorLt]
      simp [hlt]
    · show compare .operatorLte r l = _
      rw [hrule .operatorLte]
      simp [hlt]

/-- C9 witness: the overflow decision against a NaN float, evaluated at
`(Uint64(18446744073709551615), Float64(NaN))`. -/
theorem uint64_float_overflow_spec_witness :
    uint64MaxVal.IsGreaterThan floatNaNVal = .ok true ∧
    uint64MaxVal.IsEqual floatNaNVal = .ok false ∧
    floatNaNVal.IsLesserThan uint64MaxVal = .ok true := by
  have h := uint64_float_overflow_spec uint64MaxVal floatNaNVal
    18446744073709551615 .nan rfl rfl (by decide) (by decide) (by decide)
  exact ⟨h.1.2.1, h.1.1, h.2.1.2.2.2.1⟩

/-- C7: `IsNotEqual` is the negation of `IsEqual`: whenever `IsEqual`
succeeds with `x`, `IsNotEqual` succeeds with `!x`, and whenever `IsEqual`
fails with a decode error, `IsNotEqual` fails with exactly that same
error. -/
theorem isNotEqual_negation_spec (a b : Value) :
    (∀ x, a.IsEqual b = .ok x → a.IsNotEqual b = .ok (!x)) ∧
    (∀ e, a.IsEqual b = .error e → a.IsNotEqual b = .error e) := by
  constructor
  · intro x hx
    unfold Value.IsNotEqual
    rw [hx]
  · intro e he
    unfold Value.IsNotEqual
    rw [he]

/-- C10: whenever all predicates succeed, `IsGreaterThanOrEqual` is true
iff `IsGreaterThan` or `IsEqual` is, and `IsLesserThanOrEqual` is true iff
`IsLesserThan` or `IsEqual` is — across every dispatch rule. -/
theorem gte_lte_decomposition_spec (a b : Value) (e g ge s le : Bool)
    (he : a.IsEqual b = .ok e) (hg : a.IsGreaterThan b = .ok g)
    (hge : a.IsGreaterThanOrEqual b = .ok ge)
    (hs : a.IsLesserThan b = .ok s) (hle : a.IsLesserThanOrEqual b = .ok le) :
    ge = (g || e) ∧ le = (s || e) := by
  replace he : compare .operatorEq a b = .ok e := he
  replace hg : compare .operatorGt a b = .ok g := hg
  replace hge : compare .operatorGte a b = .ok ge := hge
  replace hs : compare .operatorLt a b = .ok s := hs
  replace hle : compare .operatorLte a b = .ok le := hle
  rcases compare_shape a b with ⟨hn, hall⟩ | ⟨hnn, hall⟩ | ⟨hne, hu, hall⟩
    | ⟨ai, bi, hai, hbi, hall⟩ | ⟨af, bf, haf, hbf, hall⟩ | ⟨hinc, hall⟩ | ⟨e0, hall⟩
  · have HE := ok_inj ((hall .operatorEq).symm.trans he)
    have HG := ok_inj ((hall .operatorGt).symm.trans hg)
    have HGE := ok_inj ((hall .operatorGte).symm.trans hge)
    have HS := ok_inj ((hall .operatorLt).symm.trans hs)
    have HLE := ok_inj ((hall .operatorLte).symm.trans hle)
    subst HE HG HGE HS HLE
    constructor <;> simp
  · have HE := ok_inj ((hall .operatorEq).symm.trans he)
    have HG := ok_inj ((hall .operatorGt).symm.trans hg)
    have HGE := ok_inj ((hall .operatorGte).symm.trans hge)
    have HS := ok_inj ((hall .operatorLt).symm.trans hs)
    have HLE := ok_inj ((hall .operatorLte).symm.trans hle)
    subst HE HG HGE HS HLE
    constructor <;> cases hbc : bytesCompare a.data b.data
    · have hdata : ¬(a.data = b.data) := fun hc => by
        rw [(bytesCompare_eq_iff _ _).mpr hc] at hbc; cases hbc
      simp [hbc, hdata]
    · have hdata := (bytesCompare_eq_iff a.data b.data).mp hbc
      simp [hbc, hdata]
    · have hdata : ¬(a.data = b.data) := fun hc => by
        rw [(bytesCompare_eq_iff _ _).mpr hc] at hbc; cases hbc
      simp [hbc, hdata]
    · have hdata : ¬(a.data = b.data) := fun hc => by
        rw [(bytesCompare_eq_iff _ _).mpr hc] at hbc; cases hbc
      simp [hbc, hdata]
    · have hdata := (bytesCompare_eq_iff a.data b.data).mp hbc
      simp [hbc, hdata]
    · have hdata : ¬(a.data = b.data) := fun hc => by
        rw [(bytesCompare_eq_iff _ _).mpr hc] at hbc; cases hbc
      simp [hbc, hdata]
  · have HE := ok_inj ((hall .operatorEq).symm.trans he)
    have HG := ok_inj ((hall .operatorGt).symm.trans hg)
    have HGE := ok_inj ((hall .operatorGte).symm.trans hge)
    have HS := ok_inj ((hall .operatorLt).symm.trans hs)
    have HLE := ok_inj ((hall .operatorLte).symm.trans hle)
    subst HE HG HGE HS HLE
    constructor <;> simp
  · have HE := ok_inj ((hall .operatorEq).symm.trans he)
    have HG := ok_inj ((hall .operatorGt).symm.trans hg)
    have HGE := ok_inj ((hall .operatorGte).symm.trans hge)
    have HS := ok_inj ((hall .operatorLt).symm.trans hs)
    have HLE := ok_inj ((hall .operatorLte).symm.trans hle)
    subst HE HG HGE HS HLE
    constructor
    · show decide (ai ≥ bi) = (decide (ai > bi) || decide (ai = bi))
      rw [← Bool.decide_or, decide_eq_decide]
      omega
    · show decide (ai ≤ bi) = (decide (ai < bi) || decide (ai = bi))
      rw [← Bool.decide_or, decide_eq_decide]
      omega
  · have HE := ok_inj ((hall .operatorEq).symm.trans he)
    have HG := ok_inj ((hall .operatorGt).symm.trans hg)
    have HGE := ok_inj ((hall .operatorGte).symm.trans hge)
    have HS := ok_inj ((hall .operatorLt).symm.trans hs)
    have HLE := ok_inj ((hall .operatorLte).symm.trans hle)
    subst HE HG HGE HS HLE
    constructor
    · show bf.flLe af = (bf.flLt af || af.flEq bf)
      rw [flLe_eq_lt_or_eq bf af, flEq_symm bf af]
    · show af.flLe bf = (af.flLt bf || af.flEq bf)
      rw [flLe_eq_lt_or_eq af bf]
  · have HE := ok_inj ((hall .operatorEq).symm.trans he)
    have HG := ok_inj ((hall .operatorGt).symm.trans hg)
    have HGE := ok_inj ((hall .operatorGte).symm.trans hge)
    have HS := ok_inj ((hall .operatorLt).symm.trans hs)
    have HLE := ok_inj ((hall .operatorLte).symm.trans hle)
    subst HE HG HGE HS HLE
    constructor <;> rfl
  · cases (hall .operatorEq).symm.trans he

/-- C10 witness: the decomposition evaluated at `(Int8(1), Int32(5))`. -/
theorem gte_lte_decomposition_spec_witness :
    int8OneVal.IsGreaterThanOrEqual int32FiveVal = .ok false ∧
    int8OneVal.IsLesserThanOrEqual int32FiveVal = .ok true ∧
    ((false : Bool) = (false || false) ∧ (true : Bool) = (true || false)) :=
  ⟨by decide, by decide,
    gte_lte_decomposition_spec int8OneVal int32FiveVal false false false true true
      (by decide) (by decide) (by decide) (by decide) (by decide)⟩

/-- C8 counterexample: at `(Null, Bool(true))` every predicate succeeds,
none of `IsGreaterThan`, `IsLesserThan`, `IsEqual` is true, yet neither
operand carries a NaN payload and the pair is not in the incomparable
fallback (the Null rule produced the all-false outcome), so the two stated
exceptions do not cover this pair. -/
theorem trichotomy_counterexample :
    nullVal.IsEqual boolTrueVal = .ok false ∧
    nullVal.IsGreaterThan boolTrueVal = .ok false ∧
    nullVal.IsGreaterThanOrEqual boolTrueVal = .ok false ∧
    nullVal.IsLesserThan boolTrueVal = .ok false ∧
    nullVal.IsLesserThanOrEqual boolTrueVal = .ok false ∧
    ¬exactlyOneOfThree (nullVal.IsGreaterThan boolTrueVal = .ok true)
      (nullVal.IsLesserThan boolTrueVal = .ok true)
      (nullVal.IsEqual boolTrueVal = .ok true) ∧
    ¬hasNaNPayload nullVal ∧ ¬hasNaNPayload boolTrueVal ∧
    ¬incomparableFallback nullVal boolTrueVal := by
  decide

/-- C8 (amended): for every pair on which the predicates succeed, exactly
one of `IsGreaterThan`, `IsLesserThan`, `IsEqual` is true, except that all
three may be false when an operand carries a NaN payload, and all three
are false in the incomparable-fallback case (no prior rule matched,
including no unsigned-64 overflow decision) and — in addition to the
exceptions stated in the claim — when exactly one operand is Null. -/
theorem trichotomy_amended_spec (a b : Value) (e g s : Bool)
    (he : a.IsEqual b = .ok e) (hg : a.IsGreaterThan b = .ok g)
    (hs : a.IsLesserThan b = .ok s) :
    exactlyOneOfThree (g = true) (s = true) (e = true) ∨
    hasNaNPayload a ∨ hasNaNPayload b ∨
    (incomparableFallback a b ∧ g = false ∧ s = false ∧ e = false) ∨
    (((a.type = .nullValue ∧ b.type ≠ .nullValue) ∨
      (a.type ≠ .nullValue ∧ b.type = .nullValue)) ∧
      g = false ∧ s = false ∧ e = false) := by
  replace he : compare .operatorEq a b = .ok e := he
  replace hg : compare .operatorGt a b = .ok g := hg
  replace hs : compare .operatorLt a b = .ok s := hs
  rcases compare_shape a b with ⟨hn, hall⟩ | ⟨hnn, hall⟩ | ⟨hne, hu, hall⟩
    | ⟨ai, bi, hai, hbi, hall⟩ | ⟨af, bf, haf, hbf, hall⟩ | ⟨hinc, hall⟩ | ⟨e0, hall⟩
  · by_cases hb : a.type = .nullValue ∧ b.type = .nullValue
    · left
      have HE := ok_inj ((hall .operatorEq).symm.trans he)
      have HG := ok_inj ((hall .operatorGt).symm.trans hg)
      have HS := ok_inj ((hall .operatorLt).symm.trans hs)
      subst HE HG HS
      unfold exactlyOneOfThree
      refine Or.inr (Or.inr ⟨by simp, by simp, ?_⟩)
      simp [hb.1, hb.2]
    · right; right; right; right
      have HE := ok_inj ((hall .operatorEq).symm.trans he)
      have HG := ok_inj ((hall .operatorGt).symm.trans hg)
      have HS := ok_inj ((hall .operatorLt).symm.trans hs)
      subst HE HG HS
      have hneq : ¬(a.type = b.type) := by
        rcases hn with h | h
        · exact fun hc => hb ⟨h, hc ▸ h⟩
        · exact fun hc => hb ⟨hc.trans h, h⟩
      refine ⟨?_, rfl, rfl, decide_eq_false hneq⟩
      rcases hn with h | h
      · exact Or.inl ⟨h, fun hc => hb ⟨h, hc⟩⟩
      · exact Or.inr ⟨fun hc => hb ⟨hc, h⟩, h⟩
  · left
    have HE := ok_inj ((hall .operatorEq).symm.trans he)
    have HG := ok_inj ((hall .operatorGt).symm.trans hg)
    have HS := ok_inj ((hall .operatorLt).symm.trans hs)
    subst HE HG HS
    unfold exactlyOneOfThree
    cases hbc : bytesCompare a.data b.data
    · have hdata : ¬(a.data = b.data) := fun hc => by
        rw [(bytesCompare_eq_iff _ _).mpr hc] at hbc; cases hbc
      simp [hbc, hdata]
    · have hdata := (bytesCompare_eq_iff a.data b.data).mp hbc
      simp [hbc, hdata]
    · have hdata : ¬(a.data = b.data) := fun hc => by
        rw [(bytesCompare_eq_iff _ _).mpr hc] at hbc; cases hbc
      simp [hbc, hdata]
  · left
    have HE := ok_inj ((hall .operatorEq).symm.trans he)
    have HG := ok_inj ((hall .operatorGt).symm.trans hg)
    have HS := ok_inj ((hall .operatorLt).symm.trans hs)
    subst HE HG HS
    unfold exactlyOneOfThree
    rcases hu with h | h
    · have hbu : b.type ≠ .uint64Value := fun hc => hne (h.trans hc.symm)
      simp [h, hbu]
    · have hau : a.type ≠ .uint64Value := fun hc => hne (hc.trans h.symm)
      simp [h, hau]
  · left
    have HE := ok_inj ((hall .operatorEq).symm.trans he)
    have HG := ok_inj ((hall .operatorGt).symm.trans hg)
    have HS := ok_inj ((hall .operatorLt).symm.trans hs)
    subst HE HG HS
    unfold exactlyOneOfThree
    simp only [decide_eq_true_eq]
    omega
  · by_cases hnan : af = .nan ∨ bf = .nan
    · rcases hnan with h | h
      · have hna : a.DecodeToFloat64 = .ok .nan := by rw [← h]; exact haf
        exact Or.inr (Or.inl hna)
      · have hnb : b.DecodeToFloat64 = .ok .nan := by rw [← h]; exact hbf
        exact Or.inr (Or.inr (Or.inl hnb))
    · left
      have haN : af ≠ .nan := fun hc => hnan (Or.inl hc)
      have hbN : bf ≠ .nan := fun hc => hnan (Or.inr hc)
      have HE := ok_inj ((hall .operatorEq).symm.trans he)
      have HG := ok_inj ((hall .operatorGt).symm.trans hg)
      have HS := ok_inj ((hall .operatorLt).symm.trans hs)
      subst HE HG HS
      exact exactlyOneOfThree_swap _ _ _ (fl_trichotomy af bf haN hbN)
  · have HE := ok_inj ((hall .operatorEq).symm.trans he)
    have HG := ok_inj ((hall .operatorGt).symm.trans hg)
    have HS := ok_inj ((hall .operatorLt).symm.trans hs)
    subst HE HG HS
    exact Or.inr (Or.inr (Or.inr (Or.inl ⟨hinc, rfl, rfl, rfl⟩)))
  · cases (hall .operatorEq).symm.trans he

/-- C8 (amended) witness: trichotomy evaluated at `(Int8(1), Int32(5))`,
where `IsLesserThan` is the one true predicate. -/
theorem trichotomy_amended_spec_witness :
    int8OneVal.IsEqual int32FiveVal = .ok false ∧
    int8OneVal.IsGreaterThan int32FiveVal = .ok false ∧
    int8OneVal.IsLesserThan int32FiveVal = .ok true ∧
    (exactlyOneOfThree ((false : Bool) = true) ((true : Bool) = true)
        ((false : Bool) = true) ∨
      hasNaNPayload int8OneVal ∨ hasNaNPayload int32FiveVal ∨
      (incomparableFallback int8OneVal int32FiveVal ∧ (false : Bool) = false ∧
        (true : Bool) = false ∧ (false : Bool) = false) ∨
      (((int8OneVal.type = .nullValue ∧ int32FiveVal.type ≠ .nullValue) ∨
        (int8OneVal.type ≠ .nullValue ∧ int32FiveVal.type = .nullValue)) ∧
        (false : Bool) = false ∧ (true : Bool) = false ∧
        (false : Bool) = false)) :=
  ⟨by decide, by decide, by decide,
    trichotomy_amended_spec int8OneVal int32FiveVal false false true
      (by decide) (by decide) (by decide)⟩

/-- C7 witness: negation of a successful comparison at
`(String("5"), Int64(5))`, and propagation of the decode error of a
malformed `Uint64` payload. -/
theorem isNotEqual_negation_spec_witness :
    stringFiveVal.IsNotEqual int64FiveVal = .ok true ∧
    malformedUint64Val.IsNotEqual int64FiveVal
      = .error (.decodeError .uint64Value []) :=
  ⟨(isNotEqual_negation_spec stringFiveVal int64FiveVal).1 false (by decide),
   (isNotEqual_negation_spec malformedUint64Val int64FiveVal).2
     (.decodeError .uint64Value []) (by decide)⟩

end Document
